import Mathlib

/-!
Verification development for the upstream dispatch and resilience layer of
mosdns-lts.  Each Go component relevant to the checked properties is given a
shallow embedding: pure functions become Lean functions, stateful methods
become explicit state-passing functions, `time.Duration` values are integers
(nanoseconds; int64 overflow is immaterial to the properties proved here),
and Go `float64` computations are modelled as exact rational arithmetic with
explicit truncation where the code converts back to an integer type.
Concurrency primitives (mutexes, atomics) serialise the operations, so the
embedding treats each exported method as one atomic step.
-/

set_option autoImplicit false

namespace Qos

/-- Truncation of a rational toward zero, modelling Go's conversion of a
`float64` computation back to an integer type such as `time.Duration`. -/
def truncQ (q : ℚ) : Int := if q < 0 then ⌈q⌉ else ⌊q⌋

/-! ### AdaptiveTimeout (pkg/qos, adaptive timeout file)

State of `qos.AdaptiveTimeout`.  `samples` and `consecutiveTimeouts` are
`atomic.Int64` in the source; all methods run under the instance mutex, so
they are plain integers here. -/

structure AdaptiveTimeout where
  baseTimeout : Int
  minTimeout : Int
  maxTimeout : Int
  congestionMult : ℚ
  srtt : Int
  rttVar : Int
  samples : Int
  consecutiveTimeouts : Int
deriving Repr, DecidableEq

structure TimeoutConfig where
  baseTimeout : Int
  minTimeout : Int
  maxTimeout : Int
  congestionMult : ℚ
deriving Repr, DecidableEq

/-- `qos.NewAdaptiveTimeout`: non-positive fields fall back to the defaults
(2 s base, 500 ms min, 30 s max, 4.0 congestion multiplier); the initial
estimate is `srtt = base`, `rttVar = base / 2`. -/
def NewAdaptiveTimeout (cfg : TimeoutConfig) : AdaptiveTimeout :=
  let base := if cfg.baseTimeout ≤ 0 then 2000000000 else cfg.baseTimeout
  let minT := if cfg.minTimeout ≤ 0 then 500000000 else cfg.minTimeout
  let maxT := if cfg.maxTimeout ≤ 0 then 30000000000 else cfg.maxTimeout
  let mult := if cfg.congestionMult ≤ 1 then 4 else cfg.congestionMult
  { baseTimeout := base, minTimeout := minT, maxTimeout := maxT,
    congestionMult := mult, srtt := base, rttVar := base / 2,
    samples := 0, consecutiveTimeouts := 0 }

/-- `AdaptiveTimeout.RecordSuccess`.  The first sample sets the estimate
directly; later samples apply the RFC 6298 update with α = 1/8, β = 1/4.
The deviation is computed against the freshly updated `srtt`, exactly as in
the source. -/
def AdaptiveTimeout.RecordSuccess (a : AdaptiveTimeout) (duration : Int) :
    AdaptiveTimeout :=
  let a1 : AdaptiveTimeout := { a with consecutiveTimeouts := 0 }
  let a2 : AdaptiveTimeout :=
    if a1.samples = 0 then
      { a1 with srtt := duration, rttVar := duration / 2 }
    else
      let alpha : ℚ := 1/8
      let beta : ℚ := 1/4
      let srtt2 := truncQ (alpha * (duration : ℚ) + (1 - alpha) * (a1.srtt : ℚ))
      let dev0 := duration - srtt2
      let dev := if dev0 < 0 then -dev0 else dev0
      let rttVar2 := truncQ (beta * (dev : ℚ) + (1 - beta) * (a1.rttVar : ℚ))
      { a1 with srtt := srtt2, rttVar := rttVar2 }
  { a2 with samples := a2.samples + 1 }

/-- `AdaptiveTimeout.RecordTimeout`: after three consecutive timeouts the
smoothed RTT is multiplied by `min(congestionMult, 1 + 0.5·count)`. -/
def AdaptiveTimeout.RecordTimeout (a : AdaptiveTimeout) : AdaptiveTimeout :=
  let count := a.consecutiveTimeouts + 1
  let a1 : AdaptiveTimeout := { a with consecutiveTimeouts := count }
  if 3 ≤ count then
    let multiplier := min a1.congestionMult (1 + (count : ℚ) * (1/2))
    { a1 with srtt := truncQ ((a1.srtt : ℚ) * multiplier) }
  else a1

/-- `AdaptiveTimeout.GetTimeout`: clamp `srtt + 4·rttVar` into
`[minTimeout, maxTimeout]`, returning `minTimeout` below and `maxTimeout`
above, exactly in the order the source tests the bounds. -/
def AdaptiveTimeout.GetTimeout (a : AdaptiveTimeout) : Int :=
  let timeout := a.srtt + 4 * a.rttVar
  if timeout < a.minTimeout then a.minTimeout
  else if a.maxTimeout < timeout then a.maxTimeout
  else timeout

/-- `AdaptiveTimeout.Reset`: restore `srtt = base`, `rttVar = base / 2` and
zero both counters.  The configuration fields are untouched. -/
def AdaptiveTimeout.Reset (a : AdaptiveTimeout) : AdaptiveTimeout :=
  { a with srtt := a.baseTimeout, rttVar := a.baseTimeout / 2,
           samples := 0, consecutiveTimeouts := 0 }

/-- The operations a client can perform on an `AdaptiveTimeout`. -/
inductive ATOp where
  | recordSuccess (duration : Int)
  | recordTimeout
  | reset
deriving Repr, DecidableEq

def ATOp.apply (a : AdaptiveTimeout) : ATOp → AdaptiveTimeout
  | .recordSuccess d => a.RecordSuccess d
  | .recordTimeout => a.RecordTimeout
  | .reset => a.Reset

def AdaptiveTimeout.run (a : AdaptiveTimeout) (ops : List ATOp) : AdaptiveTimeout :=
  ops.foldl ATOp.apply a

/-! ### CircuitBreaker (pkg/qos/circuit_breaker.go) -/

inductive CircuitState where
  | stateClosed
  | stateHalfOpen
  | stateOpen
deriving Repr, DecidableEq

/-- Contents of the `lastFailureTime` `atomic.Value`.  `recordFailure`
executes `cb.lastFailureTime.Store(&now)`, storing a `*time.Time`
(`ptrTime`), while the type assertion `lastFailure.(time.Time)` in
`shouldAttemptReset` succeeds only when the stored dynamic type is the value
type `time.Time` (`valTime`). -/
inductive StoredTime where
  | ptrTime (t : Int)
  | valTime (t : Int)
deriving Repr, DecidableEq

/-- State of `qos.CircuitBreaker`.  The state-change callback
(`onStateChange`) only logs on transition edges and carries no state, so it
is not modelled. -/
structure CircuitBreaker where
  maxFailures : Int
  resetTimeout : Int
  halfOpenAttempts : Int
  state : CircuitState
  failures : Int
  successCount : Int
  lastFailureTime : Option StoredTime
  halfOpenSuccess : Int
deriving Repr, DecidableEq

structure CircuitBreakerConfig where
  maxFailures : Int
  resetTimeout : Int
  halfOpenAttempts : Int
deriving Repr, DecidableEq

/-- `qos.NewCircuitBreaker`: non-positive fields fall back to the defaults
(10 failures, 60 s reset, 3 half-open attempts); initial state is Closed. -/
def NewCircuitBreaker (cfg : CircuitBreakerConfig) : CircuitBreaker :=
  let mf := if cfg.maxFailures ≤ 0 then 10 else cfg.maxFailures
  let rt := if cfg.resetTimeout ≤ 0 then 60000000000 else cfg.resetTimeout
  let ha := if cfg.halfOpenAttempts ≤ 0 then 3 else cfg.halfOpenAttempts
  { maxFailures := mf, resetTimeout := rt, halfOpenAttempts := ha,
    state := .stateClosed, failures := 0, successCount := 0,
    lastFailureTime := none, halfOpenSuccess := 0 }

/-- `CircuitBreaker.transitionTo`: set the new state; entering Closed zeroes
`failures` and `halfOpenSuccess`, entering Open zeroes `halfOpenSuccess`. -/
def CircuitBreaker.transitionTo (cb : CircuitBreaker) (newState : CircuitState) :
    CircuitBreaker :=
  let cb1 : CircuitBreaker := { cb with state := newState }
  match newState with
  | .stateClosed => { cb1 with failures := 0, halfOpenSuccess := 0 }
  | .stateOpen => { cb1 with halfOpenSuccess := 0 }
  | .stateHalfOpen => cb1

/-- `CircuitBreaker.recordFailure`: stamp `lastFailureTime` with a pointer to
`now`, then transition Closed → Open once `failures ≥ maxFailures`, and
HalfOpen → Open on any failure. -/
def CircuitBreaker.recordFailure (cb : CircuitBreaker) (now : Int) : CircuitBreaker :=
  let cb1 : CircuitBreaker := { cb with lastFailureTime := some (.ptrTime now) }
  if cb1.state = .stateClosed ∧ cb1.maxFailures ≤ cb1.failures then
    cb1.transitionTo .stateOpen
  else if cb1.state = .stateHalfOpen then
    cb1.transitionTo .stateOpen
  else cb1

/-- `CircuitBreaker.afterExecute`: on failure increment `failures` and call
`recordFailure`; on success increment `successCount`, count half-open
successes toward `halfOpenAttempts` (transitioning to Closed when reached),
and otherwise zero `failures`. -/
def CircuitBreaker.afterExecute (cb : CircuitBreaker) (failed : Bool) (now : Int) :
    CircuitBreaker :=
  if failed then
    ({ cb with failures := cb.failures + 1 }).recordFailure now
  else
    let cb1 : CircuitBreaker := { cb with successCount := cb.successCount + 1 }
    if cb1.state = .stateHalfOpen then
      let cb2 : CircuitBreaker := { cb1 with halfOpenSuccess := cb1.halfOpenSuccess + 1 }
      if cb2.halfOpenAttempts ≤ cb2.halfOpenSuccess then
        cb2.transitionTo .stateClosed
      else cb2
    else { cb1 with failures := 0 }

/-- `CircuitBreaker.shouldAttemptReset`: a nil `lastFailureTime` and a failed
type assertion both return false; the elapsed-time comparison is only reached
when the stored dynamic type is `time.Time`. -/
def CircuitBreaker.shouldAttemptReset (cb : CircuitBreaker) (now : Int) : Bool :=
  match cb.lastFailureTime with
  | none => false
  | some (.ptrTime _) => false
  | some (.valTime t) => decide (cb.resetTimeout ≤ now - t)

/-- `CircuitBreaker.beforeExecute`: returns `true` when the call must be
rejected with `ErrCircuitBreakerOpen`.  In the Open state it probes
`shouldAttemptReset` and transitions to HalfOpen when allowed. -/
def CircuitBreaker.beforeExecute (cb : CircuitBreaker) (now : Int) :
    Bool × CircuitBreaker :=
  if cb.state = .stateOpen then
    if cb.shouldAttemptReset now then (false, cb.transitionTo .stateHalfOpen)
    else (true, cb)
  else (false, cb)

/-- `CircuitBreaker.Reset`: back to Closed with zero `failures` and
`halfOpenSuccess`; `successCount` and `lastFailureTime` are not touched. -/
def CircuitBreaker.Reset (cb : CircuitBreaker) : CircuitBreaker :=
  { cb with state := .stateClosed, failures := 0, halfOpenSuccess := 0 }

/-- The externally driven events of a `CircuitBreaker`. -/
inductive CBEvent where
  | beforeExec (now : Int)
  | afterExec (failed : Bool) (now : Int)
  | reset
deriving Repr, DecidableEq

def CBEvent.apply (cb : CircuitBreaker) : CBEvent → CircuitBreaker
  | .beforeExec now => (cb.beforeExecute now).2
  | .afterExec failed now => cb.afterExecute failed now
  | .reset => cb.Reset

def CircuitBreaker.run (cb : CircuitBreaker) (evs : List CBEvent) : CircuitBreaker :=
  evs.foldl CBEvent.apply cb

end Qos

/-- Concrete circuit breaker (max_failures = 3, reset_timeout = 100) that has
entered Open via three consecutive failed executions at time 0. -/
def c1OpenBreaker : Qos.CircuitBreaker :=
  (Qos.NewCircuitBreaker ⟨3, 100, 3⟩).run
    [.afterExec true 0, .afterExec true 0, .afterExec true 0]

namespace Qos

/-! ### RequestQueue (pkg/qos/request_queue.go)

The heap is the `container/heap` binary min-heap over request priorities.
`Request.Execute` (a closure, only used by `Process`) and the internal heap
`index` bookkeeping field are not modelled: no checked property mentions
them.  Element reads/writes out of range leave the list unchanged / return
`none`; the sift operations only ever access in-range indices. -/

structure Request where
  priority : Int
  timer : Int
deriving Repr, DecidableEq

/-- `requestHeap.Less i j` of the source: strict comparison of priorities. -/
def lessAt (h : List Request) (i j : Nat) : Bool :=
  match h[i]?, h[j]? with
  | some a, some b => decide (a.priority < b.priority)
  | _, _ => false

/-- `requestHeap.Swap`. -/
def listSwap (h : List Request) (i j : Nat) : List Request :=
  match h[i]?, h[j]? with
  | some x, some y => (h.set i y).set j x
  | _, _ => h

/-- `container/heap`'s `up` sift: move element `j` toward the root while it
is smaller than its parent.  The loop runs at most `depth ≤ length` times,
so `fuel = length` never runs out; running out returns the heap as-is, which
is harmless for the properties proved here. -/
def heapUp (h : List Request) (j : Nat) : Nat → List Request
  | 0 => h
  | fuel + 1 =>
    let i := (j - 1) / 2
    if i = j ∨ ¬ lessAt h j i then h
    else heapUp (listSwap h i j) i fuel

/-- `container/heap`'s `down` sift restricted to the first `n` elements. -/
def heapDown (h : List Request) (i n : Nat) : Nat → List Request
  | 0 => h
  | fuel + 1 =>
    let j1 := 2 * i + 1
    if n ≤ j1 then h
    else
      let j := if j1 + 1 < n ∧ lessAt h (j1 + 1) j1 then j1 + 1 else j1
      if ¬ lessAt h j i then h
      else heapDown (listSwap h i j) j n fuel

/-- `heap.Push`: append, then sift the new last element up. -/
def heapPush (h : List Request) (r : Request) : List Request :=
  let h1 := h ++ [r]
  heapUp h1 (h1.length - 1) h1.length

/-- `heap.Pop`: swap the root with the last element, sift the new root down
over the first `n - 1` elements, then remove the last element (the old
root).  On an empty heap the source would panic; `Dequeue` only calls it on
non-empty heaps. -/
def heapPop (h : List Request) : List Request :=
  match h with
  | [] => []
  | _ =>
    let n := h.length - 1
    let h1 := listSwap h 0 n
    let h2 := heapDown h1 0 n h.length
    h2.take n

/-- State of `qos.RequestQueue`. -/
structure RequestQueue where
  heap : List Request
  maxSize : Nat
  maxWaitTime : Int
  droppedCount : Int
  processedCount : Int
deriving Repr, DecidableEq

structure QueueConfig where
  maxSize : Int
  maxWaitTime : Int
deriving Repr, DecidableEq

/-- `qos.NewRequestQueue`: non-positive fields fall back to 1000 items /
30 s. -/
def NewRequestQueue (cfg : QueueConfig) : RequestQueue :=
  let ms := if cfg.maxSize ≤ 0 then 1000 else cfg.maxSize
  let mw := if cfg.maxWaitTime ≤ 0 then 30000000000 else cfg.maxWaitTime
  { heap := [], maxSize := ms.toNat, maxWaitTime := mw,
    droppedCount := 0, processedCount := 0 }

inductive EnqueueResult where
  | ok
  | queueFull
deriving Repr, DecidableEq

/-- `RequestQueue.Enqueue`: reject with `ErrQueueFull` (and count the drop)
when the heap already holds `maxSize` items, else heap-push. -/
def RequestQueue.Enqueue (q : RequestQueue) (r : Request) :
    EnqueueResult × RequestQueue :=
  if q.maxSize ≤ q.heap.length then
    (.queueFull, { q with droppedCount := q.droppedCount + 1 })
  else
    (.ok, { q with heap := heapPush q.heap r })

/-- The loop of `RequestQueue.Dequeue`: peek the root; pop-and-skip it while
expired (`now - Timer > maxWaitTime`), pop-and-return the first valid one.
Each iteration pops one element, so `fuel = length` suffices; exhausted fuel
returns `none` exactly like the empty-heap exit. -/
def dequeueLoop (heap : List Request) (now maxWait : Int) :
    Nat → Option Request × List Request
  | 0 => (none, heap)
  | fuel + 1 =>
    match heap with
    | [] => (none, heap)
    | req :: _ =>
      if maxWait < now - req.timer then
        dequeueLoop (heapPop heap) now maxWait fuel
      else
        (some req, heapPop heap)

/-- `RequestQueue.Dequeue`. -/
def RequestQueue.Dequeue (q : RequestQueue) (now : Int) :
    Option Request × RequestQueue :=
  let r := dequeueLoop q.heap now q.maxWaitTime q.heap.length
  (r.1, { q with heap := r.2 })

/-- The operations of the C7 claim. -/
inductive QOp where
  | enqueue (r : Request)
  | dequeue (now : Int)
deriving Repr, DecidableEq

def QOp.apply (q : RequestQueue) : QOp → RequestQueue
  | .enqueue r => (q.Enqueue r).2
  | .dequeue now => (q.Dequeue now).2

def RequestQueue.run (q : RequestQueue) (ops : List QOp) : RequestQueue :=
  ops.foldl QOp.apply q

end Qos

namespace Transport

/-! ### Resilient DoQ exchanger (pkg/upstream/http3_pool/transport.go,
`transport` package part)

`ResilientQuicConn` owns one AdaptiveTimeout and one CircuitBreaker.  The
QUIC connection and stream are external effects: their observable inputs
(context done, `OpenStream` success, exchange outcome) are parameters. -/

structure ResilientConnConfig where
  baseTimeout : Int
  minTimeout : Int
  maxTimeout : Int
  congestionMult : ℚ
  circuitFailures : Int
  circuitReset : Int
deriving Repr, DecidableEq

/-- The mutable state of a `ResilientQuicConn`. -/
structure ResilientState where
  timeout : Qos.AdaptiveTimeout
  breaker : Qos.CircuitBreaker
deriving Repr, DecidableEq

/-- `NewResilientQuicConn`: fresh AdaptiveTimeout from the config and a fresh
CircuitBreaker with `HalfOpenAttempts = 3`. -/
def NewResilientQuicConn (cfg : ResilientConnConfig) : ResilientState :=
  { timeout := Qos.NewAdaptiveTimeout
      ⟨cfg.baseTimeout, cfg.minTimeout, cfg.maxTimeout, cfg.congestionMult⟩,
    breaker := Qos.NewCircuitBreaker ⟨cfg.circuitFailures, cfg.circuitReset, 3⟩ }

inductive ReserveResult where
  | connClosed
  | breakerOpenRefusal
  | streamError
  | reserved
deriving Repr, DecidableEq

/-- `ResilientQuicConn.ReserveNewQuery`: closed connection → `(nil, true)`;
breaker Open → refuse `(nil, false)`; failed `OpenStream` → `(nil, false)`;
otherwise a reserved exchanger.  It only reads the breaker state; the state
is unchanged. -/
def ReserveNewQuery (s : ResilientState) (ctxDone streamOk : Bool) : ReserveResult :=
  if ctxDone then .connClosed
  else if s.breaker.state = .stateOpen then .breakerOpenRefusal
  else if streamOk then .reserved
  else .streamError

inductive ExchangeOutcome where
  | ok (duration : Int)
  | failed
deriving Repr, DecidableEq

/-- `resilientExchanger.ExchangeReserved`: on any error record a timeout into
the AdaptiveTimeout, on success record the duration; the circuit breaker is
never consulted or updated. -/
def ExchangeReserved (s : ResilientState) (outcome : ExchangeOutcome) :
    ResilientState :=
  match outcome with
  | .ok d => { s with timeout := s.timeout.RecordSuccess d }
  | .failed => { s with timeout := s.timeout.RecordTimeout }

/-- `resilientExchanger.WithdrawReserved` cancels the stream only; the
`ResilientQuicConn` state is untouched. -/
def WithdrawReserved (s : ResilientState) : ResilientState := s

/-- `ResilientQuicConn.Close` closes the QUIC connection only; the timeout
and breaker are untouched. -/
def CloseConn (s : ResilientState) : ResilientState := s

/-- Every operation of the resilient exchanger's public surface. -/
inductive ResOp where
  | reserve (ctxDone streamOk : Bool)
  | exchange (outcome : ExchangeOutcome)
  | withdraw
  | close
deriving Repr, DecidableEq

def ResOp.apply (s : ResilientState) : ResOp → ResilientState
  | .reserve _ _ => s
  | .exchange outcome => ExchangeReserved s outcome
  | .withdraw => WithdrawReserved s
  | .close => CloseConn s

def runRes (s : ResilientState) (ops : List ResOp) : ResilientState :=
  ops.foldl ResOp.apply s

end Transport

namespace AdaptiveDoh

/-! ### Adaptive transport selector (`adaptive_doh` package in
pkg/upstream/http3_pool/transport.go's file group)

The two inner DoH exchangers are external collaborators; an exchange's
outcome (success with a millisecond latency, or failure) is a parameter.
Go `float64` rates and averages are modelled as exact rationals; every
division in the source is either guarded by a positive denominator or its
result only feeds branches whose outcome the proved claims do not depend
on. -/

inductive Protocol where
  | doh
  | doh3
deriving Repr, DecidableEq

structure ProtocolStats where
  totalRequests : Nat
  successRequests : Nat
  failedRequests : Nat
  totalLatency : Int
  preferredCount : Nat
  fallbackCount : Nat
deriving Repr, DecidableEq

def ProtocolStats.empty : ProtocolStats := ⟨0, 0, 0, 0, 0, 0⟩

/-- State of `adaptive_doh.Upstream` (the two `*doh.Upstream` handles and the
logger are external). -/
structure Upstream where
  current : Protocol
  preferred : Protocol
  dohStats : ProtocolStats
  doh3Stats : ProtocolStats
  sampleSize : Int
  preference : ℚ
  trialCount : Nat
  trialDone : Bool
deriving Repr, DecidableEq

def getOtherProtocol : Protocol → Protocol
  | .doh => .doh3
  | .doh3 => .doh

/-- The `u.stats[p]` map lookup. -/
def Upstream.stats (u : Upstream) : Protocol → ProtocolStats
  | .doh => u.dohStats
  | .doh3 => u.doh3Stats

def Upstream.modifyStats (u : Upstream) (p : Protocol)
    (f : ProtocolStats → ProtocolStats) : Upstream :=
  match p with
  | .doh => { u with dohStats := f u.dohStats }
  | .doh3 => { u with doh3Stats := f u.doh3Stats }

structure Opt where
  sampleSize : Int
  preference : ℚ
  trialCount : Int
deriving Repr, DecidableEq

/-- `adaptive_doh.NewUpstream` (defaults 20 / 0.8 / 10; the nil-argument
check on the inner exchangers concerns external handles and is omitted).
`trialCount` is positive after defaulting, so it is carried as a `Nat`. -/
def NewUpstream (opt : Opt) : Upstream :=
  let ss := if opt.sampleSize ≤ 0 then 20 else opt.sampleSize
  let pref := if opt.preference ≤ 0 ∨ 1 < opt.preference then 4/5 else opt.preference
  let tc := if opt.trialCount ≤ 0 then 10 else opt.trialCount
  { current := .doh, preferred := .doh, dohStats := .empty, doh3Stats := .empty,
    sampleSize := ss, preference := pref, trialCount := tc.toNat, trialDone := false }

/-- `Upstream.selectProtocol`: during the trial phase strictly alternate
`current`; in steady state return `preferred` after the availability/ratio
checks (whose shortcut branch is itself guarded by `preferred = doh3`). -/
def Upstream.selectProtocol (u : Upstream) : Protocol × Upstream :=
  if u.trialDone = false then
    let cur := getOtherProtocol u.current
    (cur, { u with current := cur })
  else
    if (u.stats u.preferred).totalRequests = 0 then (u.preferred, u)
    else
      let dohStats := u.stats .doh
      let doh3Stats := u.stats .doh3
      let doH3Available := 0 < doh3Stats.totalRequests ∧
        (doh3Stats.failedRequests : ℚ) / (doh3Stats.totalRequests : ℚ) < 1/2
      if u.preferred = .doh3 ∧ doH3Available then
        if 0 < doh3Stats.preferredCount + dohStats.fallbackCount ∧
            u.preference ≤ (doh3Stats.preferredCount : ℚ) /
              ((doh3Stats.preferredCount + dohStats.fallbackCount : Nat) : ℚ) then
          (.doh3, u)
        else (u.preferred, u)
      else (u.preferred, u)

/-- The specification's steady-state protocol choice (§4.1 *Steady state*):
simply use `preferred`. -/
def selectProtocolSpec (u : Upstream) : Protocol := u.preferred

/-- `Upstream.recordFailure`: when the failed protocol is the preferred one
and the other protocol has traffic, flip `preferred` if the other protocol's
overall success rate is strictly greater. -/
def Upstream.recordFailure (u : Upstream) (p : Protocol) : Upstream :=
  if p = u.preferred then
    if 0 < (u.stats (getOtherProtocol p)).totalRequests then
      let otherRate := ((u.stats (getOtherProtocol p)).successRequests : ℚ) /
        ((u.stats (getOtherProtocol p)).totalRequests : ℚ)
      let currentRate := ((u.stats p).successRequests : ℚ) /
        ((u.stats p).totalRequests : ℚ)
      if currentRate < otherRate then { u with preferred := getOtherProtocol p }
      else u
    else u
  else u

/-- `Upstream.evaluatePreference`: below `trialCount` combined samples do
nothing; otherwise set `trialDone` and fix `preferred` by the four-rule
procedure (no DoH3 traffic → DoH; DoH3 failure rate ≥ 0.5 → DoH; no DoH
traffic → DoH3; else compare average latencies against `preference`). -/
def Upstream.evaluatePreference (u : Upstream) : Upstream :=
  let dohStats := u.stats .doh
  let doh3Stats := u.stats .doh3
  if dohStats.totalRequests + doh3Stats.totalRequests < u.trialCount then u
  else
    let u1 : Upstream := { u with trialDone := true }
    if doh3Stats.totalRequests = 0 then { u1 with preferred := .doh }
    else if (1 : ℚ)/2 ≤ (doh3Stats.failedRequests : ℚ) / (doh3Stats.totalRequests : ℚ) then
      { u1 with preferred := .doh }
    else if dohStats.totalRequests = 0 then { u1 with preferred := .doh3 }
    else
      let dohAvg := (dohStats.totalLatency : ℚ) / (dohStats.successRequests : ℚ)
      let doh3Avg := (doh3Stats.totalLatency : ℚ) / (doh3Stats.successRequests : ℚ)
      if doh3Avg < dohAvg * u.preference then { u1 with preferred := .doh3 }
      else { u1 with preferred := .doh }

inductive ExchangeOutcome where
  | success (latencyMs : Int)
  | failure
deriving Repr, DecidableEq

/-- `stats[p].totalRequests.Add(1)`. -/
def bumpTotal (s : ProtocolStats) : ProtocolStats :=
  { s with totalRequests := s.totalRequests + 1 }

/-- `stats[p].failedRequests.Add(1)`. -/
def bumpFailed (s : ProtocolStats) : ProtocolStats :=
  { s with failedRequests := s.failedRequests + 1 }

/-- `stats[p].successRequests.Add(1)` followed by
`stats[p].totalLatency.Add(latency.Milliseconds())`. -/
def bumpSuccess (lat : Int) (s : ProtocolStats) : ProtocolStats :=
  { s with successRequests := s.successRequests + 1,
           totalLatency := s.totalLatency + lat }

/-- `stats[p].preferredCount.Add(1)`. -/
def bumpPreferred (s : ProtocolStats) : ProtocolStats :=
  { s with preferredCount := s.preferredCount + 1 }

/-- `stats[p].fallbackCount.Add(1)`. -/
def bumpFallback (s : ProtocolStats) : ProtocolStats :=
  { s with fallbackCount := s.fallbackCount + 1 }

/-- `Upstream.ExchangeContext` with the chosen exchanger's result supplied as
`outcome`; returns whether a response was produced, with the new state.
Mirrors the source order: select protocol, bump `totalRequests`; on error
bump `failedRequests` and run `recordFailure`; on success bump
`successRequests`/`totalLatency`, then during trial run `evaluatePreference`
and in steady state bump `preferredCount`/`fallbackCount`. -/
def Upstream.ExchangeContext (u : Upstream) (outcome : ExchangeOutcome) :
    Bool × Upstream :=
  let pu := u.selectProtocol
  let p := pu.1
  let u1 := pu.2.modifyStats p bumpTotal
  match outcome with
  | .failure =>
    let u2 := u1.modifyStats p bumpFailed
    (false, u2.recordFailure p)
  | .success lat =>
    let u2 := u1.modifyStats p (bumpSuccess lat)
    if u2.trialDone = false then (true, u2.evaluatePreference)
    else if p = u2.preferred then (true, u2.modifyStats p bumpPreferred)
    else (true, u2.modifyStats p bumpFallback)

end AdaptiveDoh

/-- Trial-phase adaptive selector with `trial_count = 2` after one successful
exchange (combined totals: 1). -/
def c5TrialUpstream : AdaptiveDoh.Upstream :=
  ((AdaptiveDoh.NewUpstream ⟨0, 0, 2⟩).ExchangeContext (.success 5)).2

/-- The state after a subsequent failed exchange: the combined total reaches
`trial_count`, yet the error path returned before the evaluation call. -/
def c5AfterFailure : AdaptiveDoh.Upstream :=
  (c5TrialUpstream.ExchangeContext .failure).2

namespace H3Pool

/-! ### Connection pool (pkg/upstream/http3_pool/pool.go)

The QUIC connection / HTTP3 transport handles and the dialer are external;
`Get` receives the wall clock and the dialer's outcome as parameters.  The
background health-check and idle-cleanup loops are time-driven goroutines
outside the `Get` path checked here. -/

structure PooledConn where
  healthy : Bool
  lastUsed : Int
deriving Repr, DecidableEq

structure ConnPool where
  minConnections : Int
  maxConnections : Int
  idleTimeout : Int
  conns : List PooledConn
  closed : Bool
deriving Repr, DecidableEq

structure PoolConfig where
  minConnections : Int
  maxConnections : Int
  idleTimeout : Int
deriving Repr, DecidableEq

/-- `http3_pool.NewConnPool`: negative `MinConnections` is an error;
`MaxConnections ≤ 0` defaults to 4; `MinConnections` is then capped at
`MaxConnections`; non-positive `IdleTimeout` defaults to 60 s. -/
def NewConnPool (cfg : PoolConfig) : Except String ConnPool :=
  if cfg.minConnections < 0 then .error "MinConnections cannot be negative"
  else
    let maxC := if cfg.maxConnections ≤ 0 then 4 else cfg.maxConnections
    let minC := if maxC < cfg.minConnections then maxC else cfg.minConnections
    let idle := if cfg.idleTimeout ≤ 0 then 60000000000 else cfg.idleTimeout
    .ok { minConnections := minC, maxConnections := maxC, idleTimeout := idle,
          conns := [], closed := false }

/-- The scan loop of `ConnPool.Get`, processed on the reversed connection
list (the source iterates indices from newest to oldest, returning the first
`healthy && now - lastUsed < idleTimeout` connection with its `lastUsed`
refreshed, and `removeConn`-purging every non-reusable connection on the
way).  Returns the found connection, if any, with the surviving list (still
in reversed order). -/
def getScanRev (now idle : Int) : List PooledConn → Option PooledConn × List PooledConn
  | [] => (none, [])
  | pc :: rest =>
    if pc.healthy = true ∧ now - pc.lastUsed < idle then
      (some { pc with lastUsed := now }, { pc with lastUsed := now } :: rest)
    else getScanRev now idle rest

inductive GetResult where
  | poolClosed
  | reused (p : ConnPool)
  | dialed (p : ConnPool)
  | dialFailed
  | exhausted
deriving Repr, DecidableEq

/-- `ConnPool.Get`: closed pool → error; otherwise scan newest-to-oldest,
reusing the first healthy fresh connection and purging the rest; if none was
reusable and there is room below `maxConnections`, dial (append the new
connection on success); otherwise the exhausted error. -/
def ConnPool.Get (p : ConnPool) (now : Int) (dialOk : Bool) : GetResult :=
  if p.closed = true then .poolClosed
  else
    let scan := getScanRev now p.idleTimeout p.conns.reverse
    let p1 : ConnPool := { p with conns := scan.2.reverse }
    match scan.1 with
    | some _ => .reused p1
    | none =>
      if (p1.conns.length : Int) < p1.maxConnections then
        if dialOk then .dialed { p1 with conns := p1.conns ++ [⟨true, now⟩] }
        else .dialFailed
      else .exhausted

end H3Pool

/-- A pool at its capacity (`maxConnections = 1`) whose single connection is
unhealthy: per claim C4, `Get` should return the exhausted error here. -/
def c4FullStalePool : H3Pool.ConnPool :=
  { minConnections := 0, maxConnections := 1, idleTimeout := 60,
    conns := [⟨false, 0⟩], closed := false }

namespace Transport

/-! ### DoQ per-stream exchange (`exchangeOnStream` in transport.go) -/

/-- DNS wire messages and stream contents as byte lists (entries < 256; the
embedding never constructs larger values). -/
abbrev Bytes := List Nat

/-- `binary.BigEndian.Uint16` of two bytes. -/
def be16 (b0 b1 : Nat) : Nat := b0 * 256 + b1

/-- `binary.BigEndian.PutUint16` of `v` at offset `i`. -/
def putUint16At (b : Bytes) (i v : Nat) : Bytes :=
  (b.set i (v / 256)).set (i + 1) (v % 256)

/-- Modelled from the spec: `copyMsgWithLenHdr` is repository code that is
not under `src/`; per the spec (§4.5) it copies the message, prepending its
16-bit big-endian length. -/
def copyMsgWithLenHdr (q : Bytes) : Except String Bytes :=
  if q.length < 65536 then .ok ([q.length / 256, q.length % 256] ++ q)
  else .error "message too long"

/-- Modelled from the spec: `dnsutils.ReadRawMsgFromTCP` is repository code
that is not under `src/`; per the spec (§4.5) it reads one length-prefixed
message from the stream. -/
def ReadRawMsgFromTCP (stream : Bytes) : Except String Bytes :=
  match stream with
  | n0 :: n1 :: rest =>
    if be16 n0 n1 ≤ rest.length then .ok (rest.take (be16 n0 n1))
    else .error "short read"
  | _ => .error "short read"

/-- `exchangeOnStream`: length-prefix the query, remember the original
message ID from payload bytes 2–3 (a length-2 query would make the source
panic, modelled as an error), zero the ID on the wire, write, half-close,
read the length-prefixed response.  In the source the restore of the
original ID is guarded by `if resp != nil`, where `resp` is the named return
value that has not been assigned yet — still nil — rather than the freshly
read `r`; so the restore never executes and `r` is returned as read.
`stream` holds the bytes the server sends back; `writeOk` is the
stream-write outcome. -/
def exchangeOnStream (q : Bytes) (stream : Bytes) (writeOk : Bool) :
    Except String Bytes :=
  match copyMsgWithLenHdr q with
  | .error e => .error e
  | .ok payload =>
    if payload.length < 4 then .error "panic: slice bounds out of range"
    else
      let orgQid := be16 (payload.getD 2 0) (payload.getD 3 0)
      let _wirePayload := putUint16At payload 2 0
      if writeOk = false then .error "write error"
      else
        match ReadRawMsgFromTCP stream with
        | .error e => .error e
        | .ok r =>
          let resp : Option Bytes := none
          .ok (match resp with
               | some _ => putUint16At r 0 orgQid
               | none => r)

end Transport

namespace FastForward

/-! ### Weighted upstream selector (plugin/executable/forward/utils.go)

`rand.Float64()` draws are supplied as a stream of rationals in `[0, 1)`;
`float64` score arithmetic is modelled as exact rational arithmetic. -/

structure UpstreamWrapper where
  emaLatency : Int
  queryCount : Int
  errorCount : Int
deriving Repr, DecidableEq

/-- A Go `[]int` slice header: the data written so far plus the backing
array's capacity.  `make([]int, 0, cap)` zero-fills the backing array, and a
slice expression may extend up to the capacity. -/
structure GoIntSlice where
  data : List Nat
  cap : Nat
deriving Repr, DecidableEq

structure UpstreamSelector where
  us : List UpstreamWrapper
  cachedOrder : Option GoIntSlice
  lastUpdate : Int
deriving Repr, DecidableEq

def weightCacheTTL : Int := 5000000000

/-- The Go slice expression `sl[:n]`: within the length it yields the first
`n` elements; up to the capacity it appends the zero-filled backing cells;
beyond the capacity it is a bounds panic. -/
def GoIntSlice.sliceTo (sl : GoIntSlice) (n : Nat) : Except String (List Nat) :=
  if n ≤ sl.data.length then .ok (sl.data.take n)
  else if n ≤ sl.cap then .ok (sl.data ++ List.replicate (n - sl.data.length) 0)
  else .error "slice bounds out of range"

/-- `calculateScores`: per upstream, the EMA latency (10 when unset), the
error rate, one noise draw, the error penalty, and the final score
`(1 / (latency · penalty)) · (1 + noise)`. -/
def calculateScores : List UpstreamWrapper → List ℚ → Nat → List (Nat × ℚ)
  | [], _, _ => []
  | uw :: rest, rands, i =>
    let latency : ℚ := if (uw.emaLatency : ℚ) = 0 then 10 else (uw.emaLatency : ℚ)
    let errorRate : ℚ :=
      if 0 < uw.queryCount then (uw.errorCount : ℚ) / (uw.queryCount : ℚ) else 0
    let noise := (rands.headD 0 * 2 - 1) * (1/8)
    let penaltyFactor := 1 + errorRate * 8
    let score := (1 / (latency * penaltyFactor)) * (1 + noise)
    (i, score) :: calculateScores rest rands.tail (i + 1)

/-- The inner walk of the sampling loop: skip used indices, accumulate the
scores of unused ones, pick the first whose cumulative score reaches `r`. -/
def scanPick : List (Nat × ℚ) → List Nat → ℚ → ℚ → Option (Nat × ℚ)
  | [], _, _, _ => none
  | (idx, sc) :: rest, used, r, cum =>
    if idx ∈ used then scanPick rest used r cum
    else if r ≤ cum + sc then some (idx, sc)
    else scanPick rest used r (cum + sc)

/-- The outer sampling loop (`for len(selected) < count`).  A Go iteration
whose walk picks nothing retries with a fresh draw, so the loop need not
terminate; exhausted fuel is reported as `none`. -/
def selectLoop (scores : List (Nat × ℚ)) (count : Nat) :
    Nat → List Nat → List Nat → ℚ → List ℚ → Option (List Nat)
  | fuel, selected, used, totalWeight, rands =>
    if count ≤ selected.length then some selected
    else
      match fuel with
      | 0 => none
      | fuel' + 1 =>
        let r := rands.headD 0 * totalWeight
        match scanPick scores used r 0 with
        | some (idx, sc) =>
          selectLoop scores count fuel' (selected ++ [idx]) (idx :: used)
            (totalWeight - sc) rands.tail
        | none => selectLoop scores count fuel' selected used totalWeight rands.tail

inductive SelectResult where
  | ok (order : List Nat) (s : UpstreamSelector)
  | panicked (msg : String)
  | diverged
deriving Repr, DecidableEq

/-- The recompute path of `selectUpstreams`: score everything, sample `count`
distinct indices, cache the selection — whose backing array was created by
`make([]int, 0, count)`, so the cached slice's capacity is `count`. -/
def computeSelection (s : UpstreamSelector) (count : Nat) (now : Int)
    (rands : List ℚ) (fuel : Nat) : SelectResult :=
  let scores := calculateScores s.us rands 0
  let totalWeight := (scores.map Prod.snd).sum
  match selectLoop scores count fuel [] [] totalWeight (rands.drop s.us.length) with
  | none => .diverged
  | some selected =>
    .ok selected { s with cachedOrder := some ⟨selected, count⟩, lastUpdate := now }

/-- `upstreamSelector.selectUpstreams`.  `now` is the wall clock and `rands`
the stream of `rand.Float64()` draws (the per-upstream noises inside
`calculateScores` first, then one draw per sampling iteration).  The
double-checked TTL test under the write lock collapses to a single test in
this serialised embedding.  With `k ≥ N` the identity order is returned; a
fresh cache hit copies `cachedOrder[:count]` into a new slice. -/
def selectUpstreams (s : UpstreamSelector) (count : Nat) (now : Int)
    (rands : List ℚ) (fuel : Nat) : SelectResult :=
  if s.us.length ≤ count then .ok (List.range s.us.length) s
  else
    match s.cachedOrder with
    | some c =>
      if now - s.lastUpdate < weightCacheTTL then
        match c.sliceTo count with
        | .ok order => .ok order s
        | .error e => .panicked e
      else computeSelection s count now rands fuel
    | none => computeSelection s count now rands fuel

end FastForward

/-- Three untouched upstreams for the C3 scenario. -/
def c3Selector : FastForward.UpstreamSelector :=
  { us := [⟨0, 0, 0⟩, ⟨0, 0, 0⟩, ⟨0, 0, 0⟩], cachedOrder := none, lastUpdate := 0 }

/-- The C3 selector after `selectUpstreams(1)`: the second upstream was
drawn, and the cache holds one entry with capacity 1. -/
def c3CachedSelector : FastForward.UpstreamSelector :=
  { us := [⟨0, 0, 0⟩, ⟨0, 0, 0⟩, ⟨0, 0, 0⟩],
    cachedOrder := some ⟨[1], 1⟩, lastUpdate := 0 }

namespace Qos

/-! ### Helper lemmas about AdaptiveTimeout and CircuitBreaker -/

theorem ATOp.apply_config (a : AdaptiveTimeout) (op : ATOp) :
    (op.apply a).baseTimeout = a.baseTimeout ∧
    (op.apply a).minTimeout = a.minTimeout ∧
    (op.apply a).maxTimeout = a.maxTimeout ∧
    (op.apply a).congestionMult = a.congestionMult := by
  cases op <;>
    simp only [ATOp.apply, AdaptiveTimeout.RecordSuccess, AdaptiveTimeout.RecordTimeout,
      AdaptiveTimeout.Reset] <;>
    (try split) <;> simp

theorem AdaptiveTimeout.run_config (a : AdaptiveTimeout) (ops : List ATOp) :
    (a.run ops).baseTimeout = a.baseTimeout ∧
    (a.run ops).minTimeout = a.minTimeout ∧
    (a.run ops).maxTimeout = a.maxTimeout ∧
    (a.run ops).congestionMult = a.congestionMult := by
  induction ops generalizing a with
  | nil => exact ⟨rfl, rfl, rfl, rfl⟩
  | cons op ops ih =>
    have h1 := ATOp.apply_config a op
    have h2 := ih (op.apply a)
    simp only [AdaptiveTimeout.run, List.foldl] at h2 ⊢
    exact ⟨h2.1.trans h1.1, h2.2.1.trans h1.2.1, h2.2.2.1.trans h1.2.2.1,
      h2.2.2.2.trans h1.2.2.2⟩

theorem AdaptiveTimeout.GetTimeout_mem (a : AdaptiveTimeout)
    (h : a.minTimeout ≤ a.maxTimeout) :
    a.minTimeout ≤ a.GetTimeout ∧ a.GetTimeout ≤ a.maxTimeout := by
  unfold AdaptiveTimeout.GetTimeout
  dsimp only
  split_ifs <;> omega

theorem AdaptiveTimeout.eq_of_fields {a b : AdaptiveTimeout}
    (h1 : a.baseTimeout = b.baseTimeout) (h2 : a.minTimeout = b.minTimeout)
    (h3 : a.maxTimeout = b.maxTimeout) (h4 : a.congestionMult = b.congestionMult)
    (h5 : a.srtt = b.srtt) (h6 : a.rttVar = b.rttVar) (h7 : a.samples = b.samples)
    (h8 : a.consecutiveTimeouts = b.consecutiveTimeouts) : a = b := by
  cases a; cases b; simp_all

/-- `Reset` after any operation sequence restores the exact initial state of
the estimator. -/
theorem AdaptiveTimeout.reset_run_eq (cfg : TimeoutConfig) (ops : List ATOp) :
    ((NewAdaptiveTimeout cfg).run ops).Reset = NewAdaptiveTimeout cfg := by
  obtain ⟨h1, h2, h3, h4⟩ := AdaptiveTimeout.run_config (NewAdaptiveTimeout cfg) ops
  refine AdaptiveTimeout.eq_of_fields h1 h2 h3 h4 h1 ?_ rfl rfl
  show ((NewAdaptiveTimeout cfg).run ops).baseTimeout / 2 = (NewAdaptiveTimeout cfg).rttVar
  rw [h1]
  exact rfl

end Qos

/-! ## Claim C1: circuit breaker Open → HalfOpen probe transition -/

/-- C1: after three failures (max_failures = 3, reset_timeout = 100 time
units, failures stamped at time 0) the breaker is Open and `beforeExecute`
rejects before the reset timeout — but, contrary to the claim and to spec
scenario S2, it also rejects at and after the timeout and never transitions
to HalfOpen: `recordFailure` stores `&now` (a `*time.Time`) in the
`atomic.Value` while `shouldAttemptReset` type-asserts `time.Time`, so the
assertion always fails and `shouldAttemptReset` is constantly false. -/
theorem claim_C1_open_breaker_never_resets :
    c1OpenBreaker.state = .stateOpen ∧
    (c1OpenBreaker.beforeExecute 99).1 = true ∧
    (c1OpenBreaker.beforeExecute 100).1 = true ∧
    (c1OpenBreaker.beforeExecute 100).2.state = .stateOpen ∧
    (∀ now : Int, c1OpenBreaker.shouldAttemptReset now = false) ∧
    (∀ now : Int, (c1OpenBreaker.beforeExecute now).1 = true) := by
  refine ⟨by decide, by decide, by decide, by decide, fun now => rfl, fun now => ?_⟩
  have h : c1OpenBreaker.state = .stateOpen := by decide
  simp [Qos.CircuitBreaker.beforeExecute, h, Qos.CircuitBreaker.shouldAttemptReset,
    show c1OpenBreaker.lastFailureTime = some (.ptrTime 0) from by decide]

/-! ## Claim C8: AdaptiveTimeout clamp invariant -/

/-- C8 as stated is false for arbitrary configurations: with
`MinTimeout = 10 ns` and `MaxTimeout = 5 ns` (both positive, so no defaults
apply) the fresh estimator returns `GetTimeout = 5 < min`. -/
theorem claim_C8_counterexample :
    ¬ (((Qos.NewAdaptiveTimeout ⟨0, 10, 5, 0⟩).run []).minTimeout ≤
        ((Qos.NewAdaptiveTimeout ⟨0, 10, 5, 0⟩).run []).GetTimeout ∧
       ((Qos.NewAdaptiveTimeout ⟨0, 10, 5, 0⟩).run []).GetTimeout ≤
        ((Qos.NewAdaptiveTimeout ⟨0, 10, 5, 0⟩).run []).maxTimeout) := by
  decide

/-- C8 (amended): for every configuration whose post-default bounds satisfy
`min ≤ max`, after any sequence of RecordSuccess / RecordTimeout / Reset
operations `GetTimeout` lies in `[min, max]`. -/
theorem claim_C8_clamped (cfg : Qos.TimeoutConfig) (ops : List Qos.ATOp)
    (h : (Qos.NewAdaptiveTimeout cfg).minTimeout ≤ (Qos.NewAdaptiveTimeout cfg).maxTimeout) :
    ((Qos.NewAdaptiveTimeout cfg).run ops).minTimeout ≤
      ((Qos.NewAdaptiveTimeout cfg).run ops).GetTimeout ∧
    ((Qos.NewAdaptiveTimeout cfg).run ops).GetTimeout ≤
      ((Qos.NewAdaptiveTimeout cfg).run ops).maxTimeout := by
  obtain ⟨-, h2, h3, -⟩ := Qos.AdaptiveTimeout.run_config (Qos.NewAdaptiveTimeout cfg) ops
  exact Qos.AdaptiveTimeout.GetTimeout_mem _ (by rw [h2, h3]; exact h)

/-- Witness for C8 (amended) at the all-defaults configuration after one
recorded success. -/
theorem claim_C8_clamped_witness :
    ((Qos.NewAdaptiveTimeout ⟨0, 0, 0, 0⟩).run [.recordSuccess 100]).minTimeout ≤
      ((Qos.NewAdaptiveTimeout ⟨0, 0, 0, 0⟩).run [.recordSuccess 100]).GetTimeout ∧
    ((Qos.NewAdaptiveTimeout ⟨0, 0, 0, 0⟩).run [.recordSuccess 100]).GetTimeout ≤
      ((Qos.NewAdaptiveTimeout ⟨0, 0, 0, 0⟩).run [.recordSuccess 100]).maxTimeout :=
  claim_C8_clamped ⟨0, 0, 0, 0⟩ [.recordSuccess 100] (by decide)

/-! ## Claim C9: Reset restores an initial-equivalent state -/

/-- C9 as stated is false for the circuit breaker: after one successful
execution, `Reset` leaves `successCount = 1`, so the reset breaker is not
observably equivalent to a fresh instance (`Successes()`/`Stats()` expose the
counter). -/
theorem claim_C9_counterexample :
    ((Qos.NewCircuitBreaker ⟨3, 100, 3⟩).run [.afterExec false 0]).Reset ≠
      Qos.NewCircuitBreaker ⟨3, 100, 3⟩ := by
  decide

/-- C9 (amended): `CircuitBreaker.Reset` restores Closed with zero failures
and zero half-open successes but preserves `successCount` and
`lastFailureTime` (so the result is not fresh-equivalent in general), and is
idempotent; `AdaptiveTimeout.Reset` restores the exact freshly-constructed
state after any operation sequence and is idempotent. -/
theorem claim_C9_reset_behavior :
    (∀ cb : Qos.CircuitBreaker,
       cb.Reset.state = .stateClosed ∧ cb.Reset.failures = 0 ∧
       cb.Reset.halfOpenSuccess = 0 ∧ cb.Reset.successCount = cb.successCount ∧
       cb.Reset.lastFailureTime = cb.lastFailureTime ∧ cb.Reset.Reset = cb.Reset) ∧
    (∀ (cfg : Qos.TimeoutConfig) (ops : List Qos.ATOp),
       ((Qos.NewAdaptiveTimeout cfg).run ops).Reset = Qos.NewAdaptiveTimeout cfg) ∧
    (∀ a : Qos.AdaptiveTimeout, a.Reset.Reset = a.Reset) :=
  ⟨fun _ => ⟨rfl, rfl, rfl, rfl, rfl, rfl⟩,
   fun cfg ops => Qos.AdaptiveTimeout.reset_run_eq cfg ops,
   fun _ => rfl⟩

/-! ## Claim C10: the resilient exchanger never drives its breaker -/

namespace Transport

theorem runRes_breaker (s : ResilientState) (ops : List ResOp) :
    (runRes s ops).breaker = s.breaker := by
  induction ops generalizing s with
  | nil => rfl
  | cons op ops ih =>
    have h1 : (ResOp.apply s op).breaker = s.breaker := by
      cases op with
      | reserve ctxDone streamOk => rfl
      | exchange outcome => cases outcome <;> rfl
      | withdraw => rfl
      | close => rfl
    simp only [runRes, List.foldl] at ih ⊢
    exact (ih (ResOp.apply s op)).trans h1

end Transport

/-- C10: starting from `NewResilientQuicConn`, no sequence of
ReserveNewQuery / ExchangeReserved / WithdrawReserved / Close operations ever
records into the owned CircuitBreaker — the breaker state component equals
the freshly constructed breaker, it stays Closed, and `ReserveNewQuery`
never takes the breaker-open refusal branch. -/
theorem claim_C10_breaker_untouched (cfg : Transport.ResilientConnConfig)
    (ops : List Transport.ResOp) (ctxDone streamOk : Bool) :
    (Transport.runRes (Transport.NewResilientQuicConn cfg) ops).breaker =
      (Transport.NewResilientQuicConn cfg).breaker ∧
    (Transport.runRes (Transport.NewResilientQuicConn cfg) ops).breaker.state =
      Qos.CircuitState.stateClosed ∧
    Transport.ReserveNewQuery (Transport.runRes (Transport.NewResilientQuicConn cfg) ops)
      ctxDone streamOk ≠ .breakerOpenRefusal := by
  have hb := Transport.runRes_breaker (Transport.NewResilientQuicConn cfg) ops
  have hstate : (Transport.runRes (Transport.NewResilientQuicConn cfg) ops).breaker.state =
      Qos.CircuitState.stateClosed := by rw [hb]; rfl
  refine ⟨hb, hstate, ?_⟩
  cases ctxDone <;> cases streamOk <;>
    simp [Transport.ReserveNewQuery, hstate]

/-! ## Claim C7: RequestQueue invariants -/

namespace Qos

theorem listSwap_length (h : List Request) (i j : Nat) :
    (listSwap h i j).length = h.length := by
  unfold listSwap
  split <;> simp

theorem heapUp_length (h : List Request) (j fuel : Nat) :
    (heapUp h j fuel).length = h.length := by
  induction fuel generalizing h j with
  | zero => rfl
  | succ fuel ih =>
    unfold heapUp
    dsimp only
    split
    · rfl
    · rw [ih, listSwap_length]

theorem heapDown_length (h : List Request) (i n fuel : Nat) :
    (heapDown h i n fuel).length = h.length := by
  induction fuel generalizing h i with
  | zero => rfl
  | succ fuel ih =>
    unfold heapDown
    dsimp only
    split
    · rfl
    · split <;> split <;> first
        | rfl
        | rw [ih, listSwap_length]

theorem heapPush_length (h : List Request) (r : Request) :
    (heapPush h r).length = h.length + 1 := by
  unfold heapPush
  rw [heapUp_length]
  simp

theorem heapPop_length (h : List Request) :
    (heapPop h).length = h.length - 1 := by
  unfold heapPop
  split
  · rfl
  · rw [List.length_take, heapDown_length, listSwap_length]
    omega

theorem dequeueLoop_length (now mw : Int) (fuel : Nat) (heap : List Request) :
    (dequeueLoop heap now mw fuel).2.length ≤ heap.length := by
  induction fuel generalizing heap with
  | zero => simp [dequeueLoop]
  | succ fuel ih =>
    unfold dequeueLoop
    split
    · simp
    · rename_i req rest
      split
      · refine le_trans (ih (heapPop (req :: rest))) ?_
        rw [heapPop_length]
        omega
      · simp only [heapPop_length]
        omega

theorem dequeueLoop_some (now mw : Int) (fuel : Nat) (heap : List Request)
    (req : Request) (h : (dequeueLoop heap now mw fuel).1 = some req) :
    now - req.timer ≤ mw := by
  induction fuel generalizing heap with
  | zero => simp [dequeueLoop] at h
  | succ fuel ih =>
    unfold dequeueLoop at h
    split at h
    · simp at h
    · rename_i req0 rest
      split at h
      · exact ih _ h
      · rename_i hvalid
        simp only [Option.some.injEq] at h
        subst h
        omega

theorem QOp.apply_invariant (q : RequestQueue) (op : QOp)
    (h : q.heap.length ≤ q.maxSize) :
    (op.apply q).heap.length ≤ (op.apply q).maxSize := by
  cases op with
  | enqueue r =>
    simp only [QOp.apply, RequestQueue.Enqueue]
    split
    · exact h
    · rename_i hroom
      simp only [heapPush_length]
      omega
  | dequeue now =>
    simp only [QOp.apply, RequestQueue.Dequeue]
    have hlen := dequeueLoop_length now q.maxWaitTime q.heap.length q.heap
    omega

theorem RequestQueue.run_invariant (q : RequestQueue) (ops : List QOp)
    (h : q.heap.length ≤ q.maxSize) :
    (q.run ops).heap.length ≤ (q.run ops).maxSize := by
  induction ops generalizing q with
  | nil => exact h
  | cons op ops ih =>
    simp only [RequestQueue.run, List.foldl] at ih ⊢
    exact ih (QOp.apply q op) (QOp.apply_invariant q op h)

end Qos

/-- C7: for every RequestQueue built by `NewRequestQueue` and any sequence of
Enqueue/Dequeue operations the heap length never exceeds `maxSize`; an
Enqueue performed at length `maxSize` fails with QueueFull, increments
`droppedCount` and leaves the heap untouched; and any request returned by
Dequeue satisfies `now - Timer ≤ maxWaitTime` at the moment of dequeue. -/
theorem claim_C7_queue_invariants :
    (∀ (cfg : Qos.QueueConfig) (ops : List Qos.QOp),
       ((Qos.NewRequestQueue cfg).run ops).heap.length ≤
         ((Qos.NewRequestQueue cfg).run ops).maxSize) ∧
    (∀ (q : Qos.RequestQueue) (r : Qos.Request), q.heap.length = q.maxSize →
       (q.Enqueue r).1 = .queueFull ∧ (q.Enqueue r).2.heap = q.heap ∧
       (q.Enqueue r).2.droppedCount = q.droppedCount + 1) ∧
    (∀ (q : Qos.RequestQueue) (now : Int) (req : Qos.Request),
       (q.Dequeue now).1 = some req → now - req.timer ≤ q.maxWaitTime) := by
  refine ⟨?_, ?_, ?_⟩
  · intro cfg ops
    refine Qos.RequestQueue.run_invariant _ ops ?_
    simp [Qos.NewRequestQueue]
  · intro q r hfull
    have hcond : q.maxSize ≤ q.heap.length := le_of_eq hfull.symm
    simp [Qos.RequestQueue.Enqueue, hcond]
  · intro q now req h
    exact Qos.dequeueLoop_some now q.maxWaitTime q.heap.length q.heap req h

/-- Witness for C7 at concrete inputs: a one-element default queue stays
within bounds, a full queue of capacity 1 rejects, and a valid head is
returned within its wait budget. -/
theorem claim_C7_queue_invariants_witness :
    (((Qos.NewRequestQueue ⟨4, 10⟩).run [.enqueue ⟨5, 0⟩]).heap.length ≤
       ((Qos.NewRequestQueue ⟨4, 10⟩).run [.enqueue ⟨5, 0⟩]).maxSize) ∧
    ((Qos.RequestQueue.Enqueue ⟨[⟨5, 0⟩], 1, 10, 0, 0⟩ ⟨1, 0⟩).1 = .queueFull ∧
     (Qos.RequestQueue.Enqueue ⟨[⟨5, 0⟩], 1, 10, 0, 0⟩ ⟨1, 0⟩).2.heap = [⟨5, 0⟩] ∧
     (Qos.RequestQueue.Enqueue ⟨[⟨5, 0⟩], 1, 10, 0, 0⟩ ⟨1, 0⟩).2.droppedCount = 0 + 1) ∧
    ((0 : Int) - (⟨1, 0⟩ : Qos.Request).timer ≤
      (⟨[⟨1, 0⟩], 4, 10, 0, 0⟩ : Qos.RequestQueue).maxWaitTime) :=
  ⟨claim_C7_queue_invariants.1 ⟨4, 10⟩ [.enqueue ⟨5, 0⟩],
   claim_C7_queue_invariants.2.1 ⟨[⟨5, 0⟩], 1, 10, 0, 0⟩ ⟨1, 0⟩ rfl,
   claim_C7_queue_invariants.2.2 ⟨[⟨1, 0⟩], 4, 10, 0, 0⟩ 0 ⟨1, 0⟩ (by decide)⟩

/-! ## Claims C5 and C6: adaptive transport selector -/

namespace AdaptiveDoh

theorem modifyStats_trialDone (u : Upstream) (p : Protocol)
    (f : ProtocolStats → ProtocolStats) :
    (u.modifyStats p f).trialDone = u.trialDone := by
  cases p <;> rfl

theorem modifyStats_trialCount (u : Upstream) (p : Protocol)
    (f : ProtocolStats → ProtocolStats) :
    (u.modifyStats p f).trialCount = u.trialCount := by
  cases p <;> rfl

theorem selectProtocol_snd_trialDone (u : Upstream) :
    u.selectProtocol.2.trialDone = u.trialDone := by
  unfold Upstream.selectProtocol
  dsimp only
  split_ifs <;> rfl

theorem selectProtocol_snd_trialCount (u : Upstream) :
    u.selectProtocol.2.trialCount = u.trialCount := by
  unfold Upstream.selectProtocol
  dsimp only
  split_ifs <;> rfl

theorem selectProtocol_snd_stats (u : Upstream) (q : Protocol) :
    u.selectProtocol.2.stats q = u.stats q := by
  unfold Upstream.selectProtocol
  dsimp only
  split_ifs <;> cases q <;> rfl

theorem recordFailure_trialDone (u : Upstream) (p : Protocol) :
    (u.recordFailure p).trialDone = u.trialDone := by
  unfold Upstream.recordFailure
  dsimp only
  split_ifs <;> rfl

theorem recordFailure_trialCount (u : Upstream) (p : Protocol) :
    (u.recordFailure p).trialCount = u.trialCount := by
  unfold Upstream.recordFailure
  dsimp only
  split_ifs <;> rfl

theorem recordFailure_stats (u : Upstream) (p q : Protocol) :
    (u.recordFailure p).stats q = u.stats q := by
  unfold Upstream.recordFailure
  dsimp only
  split_ifs <;> cases q <;> rfl

theorem evaluatePreference_trialDone (u : Upstream) :
    (u.evaluatePreference).trialDone =
      if (u.stats .doh).totalRequests + (u.stats .doh3).totalRequests < u.trialCount
      then u.trialDone else true := by
  unfold Upstream.evaluatePreference
  dsimp only
  split_ifs <;> rfl

/-- The two stat bumps of a successful exchange raise the combined request
total by exactly one. -/
theorem success_bumps_total_sum (u : Upstream) (p : Protocol) (lat : Int) :
    ((((u.modifyStats p bumpTotal).modifyStats p (bumpSuccess lat)).stats .doh).totalRequests +
     (((u.modifyStats p bumpTotal).modifyStats p (bumpSuccess lat)).stats .doh3).totalRequests) =
    (u.stats .doh).totalRequests + (u.stats .doh3).totalRequests + 1 := by
  cases p <;>
    simp [Upstream.modifyStats, Upstream.stats, bumpTotal, bumpSuccess] <;>
    omega

/-- The two stat bumps of a failed exchange raise the combined request total
by exactly one. -/
theorem failure_bumps_total_sum (u : Upstream) (p : Protocol) :
    ((((u.modifyStats p bumpTotal).modifyStats p bumpFailed).stats .doh).totalRequests +
     (((u.modifyStats p bumpTotal).modifyStats p bumpFailed).stats .doh3).totalRequests) =
    (u.stats .doh).totalRequests + (u.stats .doh3).totalRequests + 1 := by
  cases p <;>
    simp [Upstream.modifyStats, Upstream.stats, bumpTotal, bumpFailed] <;>
    omega

/-- During trial, a successful exchange sets `trialDone` exactly when the
combined total (after this request is counted) has reached `trialCount`. -/
theorem exchange_success_trialDone (u : Upstream) (h : u.trialDone = false) (lat : Int) :
    ((u.ExchangeContext (.success lat)).2).trialDone = true ↔
      u.trialCount ≤
        (u.stats .doh).totalRequests + (u.stats .doh3).totalRequests + 1 := by
  unfold Upstream.ExchangeContext
  dsimp only
  rw [if_pos (by rw [modifyStats_trialDone, modifyStats_trialDone,
    selectProtocol_snd_trialDone]; exact h)]
  dsimp only
  rw [evaluatePreference_trialDone, success_bumps_total_sum, selectProtocol_snd_stats,
    selectProtocol_snd_stats, modifyStats_trialCount, modifyStats_trialCount,
    selectProtocol_snd_trialCount, modifyStats_trialDone, modifyStats_trialDone,
    selectProtocol_snd_trialDone, h]
  split_ifs with hlt
  · constructor
    · intro hfalse
      exact absurd hfalse (by simp)
    · intro hle
      omega
  · simp
    omega

/-- A failed exchange never changes `trialDone`: the error path returns
before the evaluation call. -/
theorem exchange_failure_trialDone (u : Upstream) :
    ((u.ExchangeContext .failure).2).trialDone = u.trialDone := by
  unfold Upstream.ExchangeContext
  dsimp only
  rw [recordFailure_trialDone, modifyStats_trialDone, modifyStats_trialDone,
    selectProtocol_snd_trialDone]

/-- A failed exchange leaves `trialCount` unchanged. -/
theorem exchange_failure_trialCount (u : Upstream) :
    ((u.ExchangeContext .failure).2).trialCount = u.trialCount := by
  unfold Upstream.ExchangeContext
  dsimp only
  rw [recordFailure_trialCount, modifyStats_trialCount, modifyStats_trialCount,
    selectProtocol_snd_trialCount]

/-- A failed exchange raises the combined request total by exactly one. -/
theorem exchange_failure_total_sum (u : Upstream) :
    (((u.ExchangeContext .failure).2).stats .doh).totalRequests +
    (((u.ExchangeContext .failure).2).stats .doh3).totalRequests =
    (u.stats .doh).totalRequests + (u.stats .doh3).totalRequests + 1 := by
  unfold Upstream.ExchangeContext
  dsimp only
  rw [recordFailure_stats, recordFailure_stats, failure_bumps_total_sum,
    selectProtocol_snd_stats, selectProtocol_snd_stats]

end AdaptiveDoh

/-- C5 as stated is false: in the trial phase with `trial_count = 2`, after
one successful exchange, a failed exchange brings the combined request total
to `trial_count`, yet the evaluation does not run — `trialDone` is still
false, because the error path of `ExchangeContext` returns before the
`evaluatePreference` call. -/
theorem claim_C5_counterexample :
    ((c5AfterFailure.stats .doh).totalRequests +
       (c5AfterFailure.stats .doh3).totalRequests = c5AfterFailure.trialCount) ∧
    c5AfterFailure.trialDone = false := by
  constructor
  · rw [show c5AfterFailure = (c5TrialUpstream.ExchangeContext .failure).2 from rfl,
      AdaptiveDoh.exchange_failure_total_sum, AdaptiveDoh.exchange_failure_trialCount]
    decide
  · rw [show c5AfterFailure = (c5TrialUpstream.ExchangeContext .failure).2 from rfl,
      AdaptiveDoh.exchange_failure_trialDone]
    decide

/-- C5 (amended): during the trial phase the evaluation runs after every
completed *successful* exchange — `trialDone` becomes true exactly when the
combined total has reached `trial_count` — while a failed exchange never
runs the evaluation and leaves `trialDone` unchanged even if the combined
total has reached `trial_count`. -/
theorem claim_C5_evaluation_only_after_success (u : AdaptiveDoh.Upstream) :
    (∀ lat : Int, u.trialDone = false →
       (((u.ExchangeContext (.success lat)).2).trialDone = true ↔
         u.trialCount ≤
           (u.stats .doh).totalRequests + (u.stats .doh3).totalRequests + 1)) ∧
    ((u.ExchangeContext .failure).2).trialDone = u.trialDone :=
  ⟨fun lat h => AdaptiveDoh.exchange_success_trialDone u h lat,
   AdaptiveDoh.exchange_failure_trialDone u⟩

/-- Witness for C5 (amended): with `trial_count = 1`, the first successful
exchange of a fresh selector runs the evaluation; a fresh failed exchange
leaves `trialDone` unchanged. -/
theorem claim_C5_evaluation_only_after_success_witness :
    ((((AdaptiveDoh.NewUpstream ⟨0, 0, 1⟩).ExchangeContext (.success 7)).2).trialDone = true ↔
       (AdaptiveDoh.NewUpstream ⟨0, 0, 1⟩).trialCount ≤
         ((AdaptiveDoh.NewUpstream ⟨0, 0, 1⟩).stats .doh).totalRequests +
           ((AdaptiveDoh.NewUpstream ⟨0, 0, 1⟩).stats .doh3).totalRequests + 1) ∧
    (((AdaptiveDoh.NewUpstream ⟨0, 0, 1⟩).ExchangeContext .failure).2).trialDone =
      (AdaptiveDoh.NewUpstream ⟨0, 0, 1⟩).trialDone :=
  ⟨(claim_C5_evaluation_only_after_success (AdaptiveDoh.NewUpstream ⟨0, 0, 1⟩)).1 7 rfl,
   (claim_C5_evaluation_only_after_success (AdaptiveDoh.NewUpstream ⟨0, 0, 1⟩)).2⟩

/-- C6: once `trialDone` is set, `selectProtocol` is extensionally the
specification's steady-state rule — it returns `preferred` for every
combination of the per-protocol counters (the shortcut branch is guarded by
`preferred = doh3` and returns doh3 itself), and leaves the state
unchanged. -/
theorem claim_C6_steady_select_is_preferred (u : AdaptiveDoh.Upstream)
    (h : u.trialDone = true) :
    u.selectProtocol.1 = AdaptiveDoh.selectProtocolSpec u ∧
    u.selectProtocol.2 = u := by
  have hne : ¬ (u.trialDone = false) := by rw [h]; simp
  unfold AdaptiveDoh.Upstream.selectProtocol AdaptiveDoh.selectProtocolSpec
  dsimp only
  rw [if_neg hne]
  split_ifs with h0 h1 h2
  · exact ⟨rfl, rfl⟩
  · exact ⟨h1.1.symm, rfl⟩
  · exact ⟨rfl, rfl⟩
  · exact ⟨rfl, rfl⟩

/-- Witness for C6 at a concrete steady-state selector. -/
theorem claim_C6_steady_select_is_preferred_witness :
    (⟨.doh, .doh, .empty, .empty, 20, 4/5, 10, true⟩ :
        AdaptiveDoh.Upstream).selectProtocol.1 =
      AdaptiveDoh.selectProtocolSpec ⟨.doh, .doh, .empty, .empty, 20, 4/5, 10, true⟩ ∧
    (⟨.doh, .doh, .empty, .empty, 20, 4/5, 10, true⟩ :
        AdaptiveDoh.Upstream).selectProtocol.2 =
      ⟨.doh, .doh, .empty, .empty, 20, 4/5, 10, true⟩ :=
  claim_C6_steady_select_is_preferred ⟨.doh, .doh, .empty, .empty, 20, 4/5, 10, true⟩ rfl

/-! ## Claim C4: pool exhaustion -/

namespace H3Pool

/-- If the scan finds nothing reusable it has purged every scanned
connection: the surviving list is empty. -/
theorem getScanRev_none (now idle : Int) (l : List PooledConn)
    (h : (getScanRev now idle l).1 = none) : (getScanRev now idle l).2 = [] := by
  induction l with
  | nil => rfl
  | cons pc rest ih =>
    simp only [getScanRev] at h ⊢
    split_ifs at h ⊢ with hc
    exact ih h

end H3Pool

/-- C4 as stated is false: in the reachable state where the pool holds
`maxConnections = 1` connections, none reusable, `Get` does not return the
exhausted error — it purges the stale connection during the scan and dials
instead. -/
theorem claim_C4_counterexample :
    ((c4FullStalePool.conns.length : Int) = c4FullStalePool.maxConnections) ∧
    (∀ pc ∈ c4FullStalePool.conns,
       ¬ (pc.healthy = true ∧ 0 - pc.lastUsed < c4FullStalePool.idleTimeout)) ∧
    c4FullStalePool.Get 0 true ≠ .exhausted ∧
    c4FullStalePool.Get 0 true =
      .dialed { c4FullStalePool with conns := [⟨true, 0⟩] } := by
  refine ⟨by decide, by decide, by decide, by decide⟩

/-- C4 (amended): `Get` never returns the exhausted error when
`maxConnections ≥ 1` (which `NewConnPool` always guarantees): every
non-reusable connection is purged during the scan, so when nothing is
reusable the pool is empty and `Get` dials. -/
theorem claim_C4_get_never_exhausted :
    (∀ (p : H3Pool.ConnPool) (now : Int) (dialOk : Bool),
       1 ≤ p.maxConnections → p.Get now dialOk ≠ .exhausted) ∧
    (∀ (cfg : H3Pool.PoolConfig) (p : H3Pool.ConnPool),
       H3Pool.NewConnPool cfg = .ok p → 1 ≤ p.maxConnections) := by
  constructor
  · intro p now dialOk hmax
    by_cases hclosed : p.closed = true
    · simp [H3Pool.ConnPool.Get, hclosed]
    · cases hscan : (H3Pool.getScanRev now p.idleTimeout p.conns.reverse).1 with
      | some pc => simp [H3Pool.ConnPool.Get, hclosed, hscan]
      | none =>
        have h2 := H3Pool.getScanRev_none now p.idleTimeout p.conns.reverse hscan
        have hlen : ((H3Pool.getScanRev now p.idleTimeout
            p.conns.reverse).2.length : Int) < p.maxConnections := by
          rw [h2]
          simp only [List.length_nil, Nat.cast_zero]
          omega
        cases dialOk <;> simp [H3Pool.ConnPool.Get, hclosed, hscan, hlen]
  · intro cfg p h
    unfold H3Pool.NewConnPool at h
    split_ifs at h <;> cases h <;> dsimp only <;> omega

/-- Witness for C4 (amended) at the counterexample pool and the default
configuration. -/
theorem claim_C4_get_never_exhausted_witness :
    c4FullStalePool.Get 0 true ≠ .exhausted ∧
    1 ≤ (⟨0, 4, 60000000000, [], false⟩ : H3Pool.ConnPool).maxConnections :=
  ⟨claim_C4_get_never_exhausted.1 c4FullStalePool 0 true (by decide),
   claim_C4_get_never_exhausted.2 ⟨0, 0, 0⟩ ⟨0, 4, 60000000000, [], false⟩ rfl⟩

/-! ## Claim C2: DoQ message-ID restoration -/

/-- C2: a DoQ exchange with query ID 0x1234 (bytes 18, 52).  The server's
response arrives with ID 0 and `exchangeOnStream` returns it unchanged: the
restore of the original ID is dead code, because it tests the yet-unassigned
named return `resp` (still nil) instead of the freshly read `r`.  The
returned bytes carry ID 0, not the query's 0x1234, contradicting the claim
and the spec's round-trip property. -/
theorem claim_C2_id_not_restored :
    Transport.exchangeOnStream [18, 52, 0, 0] [0, 4, 0, 0, 9, 9] true =
      .ok [0, 0, 9, 9] ∧
    Transport.be16 18 52 = 4660 ∧
    Transport.be16 0 0 ≠ 4660 :=
  ⟨rfl, rfl, by decide⟩

/-! ## Claim C3: weighted selector order cache -/

namespace FastForward

/-- A successful sampling loop returns exactly `count` indices (it starts
below `count` and appends one index at a time). -/
theorem selectLoop_some_length (scores : List (Nat × ℚ)) (count : Nat)
    (fuel : Nat) :
    ∀ (selected used : List Nat) (tw : ℚ) (rands : List ℚ) (l : List Nat),
      selected.length ≤ count →
      selectLoop scores count fuel selected used tw rands = some l →
      l.length = count := by
  induction fuel with
  | zero =>
    intro selected used tw rands l hle h
    unfold selectLoop at h
    split_ifs at h with hc
    injection h with h
    subst h
    omega
  | succ fuel ih =>
    intro selected used tw rands l hle h
    unfold selectLoop at h
    split_ifs at h with hc
    · injection h with h
      subst h
      omega
    · dsimp only at h
      split at h
      · rename_i idx sc _
        exact ih _ _ _ _ _ (by simp; omega) h
      · exact ih _ _ _ _ _ hle h

end FastForward

/-- The concrete first call of the C3 scenario: three unmeasured upstreams,
`k = 1`, all random draws `1/2`; the second upstream is drawn and cached
with capacity 1. -/
theorem c3_first_call_eq :
    FastForward.selectUpstreams c3Selector 1 0 [1/2, 1/2, 1/2, 1/2] 2 =
      .ok [1] c3CachedSelector := by
  norm_num [FastForward.selectUpstreams, FastForward.computeSelection,
    FastForward.calculateScores, FastForward.selectLoop, FastForward.scanPick,
    c3Selector, c3CachedSelector]

/-- C3 as stated is false: after `selectUpstreams(1)` populates the cache
(with one entry, capacity 1), a call `selectUpstreams(2)` within the TTL
does not return a normal result — the slice `cachedOrder[:2]` exceeds the
cached slice's capacity and panics. -/
theorem claim_C3_counterexample :
    FastForward.selectUpstreams c3Selector 1 0 [1/2, 1/2, 1/2, 1/2] 2 =
      .ok [1] c3CachedSelector ∧
    FastForward.selectUpstreams c3CachedSelector 2 1 [] 0 =
      .panicked "slice bounds out of range" :=
  ⟨c3_first_call_eq, by decide⟩

/-- C3 (amended): a successful `selectUpstreams(k1)` with `k1 < N` on an
empty cache stores exactly `k1` indices with backing capacity `k1`; a later
call within the TTL returns the first `k2` cached entries when `k2 ≤ k1`,
and panics with a slice-bounds error when `k1 < k2 < N` — it never returns
past-the-end entries as a normal result. -/
theorem claim_C3_cache_read_behavior :
    (∀ (s : FastForward.UpstreamSelector) (count : Nat) (now : Int)
       (rands : List ℚ) (fuel : Nat) (ord : List Nat)
       (s' : FastForward.UpstreamSelector),
       count < s.us.length → s.cachedOrder = none →
       FastForward.selectUpstreams s count now rands fuel = .ok ord s' →
       s'.cachedOrder = some ⟨ord, count⟩ ∧ ord.length = count) ∧
    (∀ (s : FastForward.UpstreamSelector) (count : Nat) (now : Int)
       (rands : List ℚ) (fuel : Nat) (c : FastForward.GoIntSlice),
       s.cachedOrder = some c → c.cap = c.data.length →
       count < s.us.length → now - s.lastUpdate < FastForward.weightCacheTTL →
       count ≤ c.data.length →
       FastForward.selectUpstreams s count now rands fuel =
         .ok (c.data.take count) s) ∧
    (∀ (s : FastForward.UpstreamSelector) (count : Nat) (now : Int)
       (rands : List ℚ) (fuel : Nat) (c : FastForward.GoIntSlice),
       s.cachedOrder = some c → c.cap = c.data.length →
       count < s.us.length → now - s.lastUpdate < FastForward.weightCacheTTL →
       c.data.length < count →
       FastForward.selectUpstreams s count now rands fuel =
         .panicked "slice bounds out of range") := by
  refine ⟨?_, ?_, ?_⟩
  · intro s count now rands fuel ord s' hcnt hnone h
    unfold FastForward.selectUpstreams at h
    rw [if_neg (by omega), hnone] at h
    unfold FastForward.computeSelection at h
    dsimp only at h
    split at h
    · cases h
    · rename_i selected hsel
      injection h with h1 h2
      subst h1
      subst h2
      exact ⟨rfl, FastForward.selectLoop_some_length _ _ _ _ _ _ _ _
        (by simp) hsel⟩
  · intro s count now rands fuel c hc hcap hcnt httl hle
    unfold FastForward.selectUpstreams
    rw [if_neg (by omega), hc]
    dsimp only
    rw [if_pos httl]
    unfold FastForward.GoIntSlice.sliceTo
    rw [if_pos hle]
  · intro s count now rands fuel c hc hcap hcnt httl hgt
    unfold FastForward.selectUpstreams
    rw [if_neg (by omega), hc]
    dsimp only
    rw [if_pos httl]
    unfold FastForward.GoIntSlice.sliceTo
    rw [if_neg (by omega), if_neg (by omega)]

/-- Witness for C3 (amended) on the concrete scenario: the first call
populates a one-entry cache; within the TTL, `k2 = 1` reads it back and
`k2 = 2` panics. -/
theorem claim_C3_cache_read_behavior_witness :
    (c3CachedSelector.cachedOrder = some ⟨[1], 1⟩ ∧ ([1] : List Nat).length = 1) ∧
    FastForward.selectUpstreams c3CachedSelector 1 1 [] 0 =
      .ok (([1] : List Nat).take 1) c3CachedSelector ∧
    FastForward.selectUpstreams c3CachedSelector 2 1 [] 0 =
      .panicked "slice bounds out of range" :=
  ⟨claim_C3_cache_read_behavior.1 c3Selector 1 0 [1/2, 1/2, 1/2, 1/2] 2 [1]
      c3CachedSelector (by decide) rfl c3_first_call_eq,
   claim_C3_cache_read_behavior.2.1 c3CachedSelector 1 1 [] 0 ⟨[1], 1⟩
      rfl rfl (by decide) (by decide) (by decide),
   claim_C3_cache_read_behavior.2.2 c3CachedSelector 2 1 [] 0 ⟨[1], 1⟩
      rfl rfl (by decide) (by decide) (by decide)⟩
